import Mathlib

/-!
Verification of the streaming text-to-speech protocol layer.

Shallow embedding of `src/synthesizer/text_stream.rs`, `src/synthesizer/utils.rs`
and `src/synthesizer/mod.rs` of the `azure-speech-sdk-rs` repository.

Conventions of the embedding:
* Rust byte slices (`&[u8]`) become `List Nat`, with every element a byte value.
* Rust `usize` arithmetic becomes `Nat` arithmetic (all the quantities involved
  are slice offsets bounded by the slice length, so no overflow is possible).
* `X-Timestamp` header values are produced by `SystemTime::now()` in the source;
  the embedding passes the timestamp string as an explicit parameter.
* JSON bodies built with the `serde_json::json!` macro and index-assignment are
  kept as structured values (`Json` below).  The source serializes them to a
  string when the message is built; none of the properties verified here
  depend on the serialized text, only on the structure.
* `f32` (the `temperature` field) is modelled as `ℚ`; the development only
  reasons about the presence and identity of the value, never float arithmetic.
-/

namespace AzureSpeech

/-! ## JSON values

Model of the fragment of `serde_json::Value` used by `src/synthesizer/utils.rs`:
null never occurs, arrays never occur; objects are ordered association lists
(insertion order — the claims proved below only depend on key lookup and on
the key set, which agree between ordered and sorted map representations). -/

inductive Json where
  | bool (b : Bool)
  | num (q : ℚ)
  | str (s : String)
  | obj (fields : List (String × Json))

/-- Lookup of a key in an association list (first match). -/
def getF : List (String × Json) → String → Option Json
  | [], _ => none
  | (k', v) :: rest, k => if k' = k then some v else getF rest k

/-- Field lookup `value.get(k)` on a JSON object; `none` on non-objects. -/
def Json.getField : Json → String → Option Json
  | .obj fs, k => getF fs k
  | _, _ => none

/-- Insert-or-replace of a key in an association list: replace in place if the
key is present, append at the end otherwise (the behaviour of the serde_json
index assignment on the map). -/
def setF : List (String × Json) → String → Json → List (String × Json)
  | [], k, v => [(k, v)]
  | (k', v') :: rest, k, v =>
    if k' = k then (k, v) :: rest else (k', v') :: setF rest k v

/-- Index assignment `value[k] = v` on a JSON object; the source only ever
applies it to objects, so other constructors are returned unchanged. -/
def Json.setField : Json → String → Json → Json
  | .obj fs, k, v => .obj (setF fs k v)
  | j, _, _ => j

/-- The keys of a JSON object, in order; `[]` on non-objects. -/
def Json.objKeys : Json → List String
  | .obj fs => fs.map Prod.fst
  | _ => []

/-! ## The UTF-8 chunker (`Utf8Chunker` in `src/synthesizer/text_stream.rs`)

```rust
fn next(&mut self) -> Option<Self::Item> {
    if self.offset >= self.data.len() { return None; }
    let remaining = &self.data[self.offset..];
    let take = remaining.len().min(self.limit);
    let mut end = self.offset + take;
    // back off until end is on a UTF-8 boundary
    while end > self.offset && (self.data[end - 1] & 0b1100_0000) == 0b1000_0000 {
        end -= 1;
    }
    if end == self.offset {
        // extremely rare: individual codepoint longer than limit; fall back
        end = self.offset + take;
    }
    let chunk = &self.data[self.offset..end];
    self.offset = end;
    Some(chunk)
}
```
-/

/-- Continuation-byte test `(b & 0b1100_0000) == 0b1000_0000`. -/
def isCont (b : Nat) : Bool := Nat.land b 192 == 128

/-- The `while end > offset && isCont(data[end-1]) { end -= 1 }` loop of
`Utf8Chunker::next`, as a function of the initial `end`.  The source indexes
`data[end - 1]` with `end ≤ data.len()` guaranteed; `List.getD` with default
`0` is only ever used at in-bounds indices at every call site below. -/
def backoffEnd (data : List Nat) (offset : Nat) : Nat → Nat
  | 0 => 0
  | e + 1 =>
    if offset < e + 1 && isCont (data.getD e 0) then backoffEnd data offset e
    else e + 1

/-- The final `end` computed by one `Utf8Chunker::next` call starting at
`offset`: `take` bytes forward, backed off to a non-continuation byte, with
the `end == offset` fallback re-extending to the full `take`-byte slice. -/
def chunkEnd (data : List Nat) (limit offset : Nat) : Nat :=
  let take := min (data.length - offset) limit
  let e := backoffEnd data offset (offset + take)
  if e = offset then offset + take else e

/-- Driving the iterator to exhaustion, fuel-indexed so that the function is
structurally recursive and computable.  One unit of fuel per `next()` call;
`chunks` below supplies `data.length` fuel, which `chunksFuel_flatten` proves
sufficient whenever `1 ≤ limit` (each call advances the cursor by at least one
byte).  For `limit = 0` the source iterator never terminates, so no claim is
made about it. -/
def chunksFuel (data : List Nat) (limit : Nat) : Nat → Nat → List (List Nat)
  | 0, _ => []
  | fuel + 1, offset =>
    if offset < data.length then
      ((data.drop offset).take (chunkEnd data limit offset - offset)) ::
        chunksFuel data limit fuel (chunkEnd data limit offset)
    else []

/-- All chunks yielded by `Utf8Chunker::new(data, limit)`. -/
def chunks (data : List Nat) (limit : Nat) : List (List Nat) :=
  chunksFuel data limit data.length 0

/-! ## UTF-8 validity

`std::str::from_utf8` succeeds exactly on RFC 3629 well-formed byte sequences.
Embedded as the standard UTF-8 acceptance automaton; state `0` accepts, the
other states record which continuation bytes are still owed and the
restricted range of the first continuation byte after `E0`/`ED`/`F0`/`F4`. -/

/-- One transition of the UTF-8 acceptance automaton; `none` rejects. -/
def utf8Step (state b : Nat) : Option Nat :=
  match state with
  | 0 =>
    if b ≤ 0x7F then some 0
    else if 0xC2 ≤ b ∧ b ≤ 0xDF then some 1
    else if b = 0xE0 then some 3
    else if (0xE1 ≤ b ∧ b ≤ 0xEC) ∨ b = 0xEE ∨ b = 0xEF then some 2
    else if b = 0xED then some 4
    else if b = 0xF0 then some 6
    else if 0xF1 ≤ b ∧ b ≤ 0xF3 then some 5
    else if b = 0xF4 then some 7
    else none
  | 1 => if 0x80 ≤ b ∧ b ≤ 0xBF then some 0 else none
  | 2 => if 0x80 ≤ b ∧ b ≤ 0xBF then some 1 else none
  | 3 => if 0xA0 ≤ b ∧ b ≤ 0xBF then some 1 else none
  | 4 => if 0x80 ≤ b ∧ b ≤ 0x9F then some 1 else none
  | 5 => if 0x80 ≤ b ∧ b ≤ 0xBF then some 2 else none
  | 6 => if 0x90 ≤ b ∧ b ≤ 0xBF then some 2 else none
  | 7 => if 0x80 ≤ b ∧ b ≤ 0x8F then some 2 else none
  | _ => none

/-- Run of the automaton from `state`. -/
def utf8Loop (state : Nat) : List Nat → Bool
  | [] => state == 0
  | b :: rest =>
    match utf8Step state b with
    | some s => utf8Loop s rest
    | none => false

/-- Acceptance of `std::str::from_utf8(bs)`: `bs` is well-formed UTF-8. -/
def validUtf8 (bs : List Nat) : Bool := utf8Loop 0 bs

/-! ## Configuration and request types

`StreamingRequest` is embedded from `src/synthesizer/mod.rs`.  The `Config`,
`Language` and `Voice` types live in `src/synthesizer/config.rs`,
`language.rs` and `voice.rs`, which are not part of the provided sources;
they are modelled from the spec (§4.3 and §6). -/

/-- Modelled from the spec: the `Voice` type (`src/synthesizer/voice.rs` is
absent).  A voice is identified by its canonical string (`Voice::as_str`). -/
structure Voice where
  name : String

/-- Modelled from the spec: the `Language` type (`src/synthesizer/language.rs`
is absent).  A language carries its canonical locale string
(`Language::as_str`) and its defined default voice
(`Language::default_voice`); the spec names the pair
`"en-US"` / `"en-US-JennyNeural"`. -/
structure Language where
  code : String
  defaultVoiceName : String

/-- Lookup `Language::default_voice()`. -/
def Language.default_voice (l : Language) : Voice := ⟨l.defaultVoiceName⟩

/-- Modelled from the spec: the synthesizer `Config`
(`src/synthesizer/config.rs` is absent).  Six boolean metadata flags, the
canonical string of the audio format, language/voice selection, the
auto-detection flag, and the device metadata serialized into
`speech.config` (kept as opaque JSON values). -/
structure Config where
  bookmark_enabled : Bool
  punctuation_boundary_enabled : Bool
  sentence_boundary_enabled : Bool
  session_end_enabled : Bool
  viseme_enabled : Bool
  word_boundary_enabled : Bool
  audio_format : String
  language : Language
  voice : Option Voice
  auto_detect_language : Bool
  device_system : Json
  device_os : Json

/-- Per-request overrides: `StreamingRequest` from `src/synthesizer/mod.rs`;
`temperature: Option<f32>` is modelled with `ℚ`. -/
structure StreamingRequest where
  pitch : Option String
  rate : Option String
  volume : Option String
  style : Option String
  temperature : Option ℚ
  prefer_locales : Option String
  custom_lexicon_url : Option String

/-! ## Wire messages (`src/synthesizer/utils.rs`)

A `tokio_websockets::Message` built by `make_text_payload(headers, body)`:
an ordered header list plus an optional body.  Text chunk bodies are kept as
byte lists; JSON bodies are kept structured (the source serializes them with
`.to_string()` at construction). -/

/-- Body of an outbound message. -/
inductive MsgBody where
  | empty
  | text (bytes : List Nat)
  | json (j : Json)

/-- An outbound wire message: ordered headers plus body. -/
structure Msg where
  headers : List (String × String)
  body : MsgBody

/-- Embedding of `create_speech_config_message(request_id, config)`; the `X-Timestamp`
value (from `SystemTime::now()`) is the explicit parameter `ts`. -/
def create_speech_config_message (request_id ts : String) (config : Config) : Msg :=
  { headers := [
      ("X-RequestId", request_id),
      ("Path", "speech.config"),
      ("Content-Type", "application/json"),
      ("X-Timestamp", ts)],
    body := .json (.obj [("context", .obj [
      ("system", config.device_system),
      ("os", config.device_os)])]) }

/-- The `request` JSON object built in `create_synthesis_context_message`
(lines 67–91 of `src/synthesizer/utils.rs`): starting from `json!({})`, each
set optional field is inserted under its wire name, in source order. -/
def requestJson (req : StreamingRequest) : Json :=
  let j : Json := .obj []
  let j := match req.pitch with | some v => j.setField "pitch" (.str v) | none => j
  let j := match req.rate with | some v => j.setField "rate" (.str v) | none => j
  let j := match req.volume with | some v => j.setField "volume" (.str v) | none => j
  let j := match req.style with | some v => j.setField "style" (.str v) | none => j
  let j := match req.temperature with | some v => j.setField "temperature" (.num v) | none => j
  let j := match req.prefer_locales with | some v => j.setField "preferLocales" (.str v) | none => j
  let j := match req.custom_lexicon_url with | some v => j.setField "customLexiconUrl" (.str v) | none => j
  j

/-- The JSON body of the `synthesis.context` message: the `json!` literal of
lines 41–59, the conditional `locale` insertion of lines 62–64, the optional
`request` object of lines 67–91, wrapped as `{"synthesis": …}` (line 107). -/
def synthesisContextBody (config : Config) (request : Option StreamingRequest) : Json :=
  let language := config.language
  let voice := config.voice.getD language.default_voice
  let synthesis : Json := .obj [
    ("audio", .obj [
      ("metadataOptions", .obj [
        ("bookmarkEnabled", .bool config.bookmark_enabled),
        ("punctuationBoundaryEnabled", .bool config.punctuation_boundary_enabled),
        ("sentenceBoundaryEnabled", .bool config.sentence_boundary_enabled),
        ("sessionEndEnabled", .bool config.session_end_enabled),
        ("visemeEnabled", .bool config.viseme_enabled),
        ("wordBoundaryEnabled", .bool config.word_boundary_enabled)]),
      ("outputFormat", .str config.audio_format)]),
    ("language", .obj [
      ("autoDetection", .bool config.auto_detect_language)]),
    ("voice", .obj [
      ("name", .str voice.name)])]
  let synthesis :=
    if !config.auto_detect_language then
      synthesis.setField "language"
        ((synthesis.getField "language").getD (.obj [])
          |>.setField "locale" (.str language.code))
    else synthesis
  let synthesis :=
    match request with
    | some req => synthesis.setField "request" (requestJson req)
    | none => synthesis
  .obj [("synthesis", synthesis)]

/-- Embedding of `create_synthesis_context_message(request_id, config, request)`. -/
def create_synthesis_context_message (request_id ts : String) (config : Config)
    (request : Option StreamingRequest) : Msg :=
  { headers := [
      ("Content-Type", "application/json"),
      ("X-Timestamp", ts),
      ("X-RequestId", request_id),
      ("Path", "synthesis.context")],
    body := .json (synthesisContextBody config request) }

/-- Embedding of `create_text_message(request_id, text)` (v2 text streaming). -/
def create_text_message (request_id ts : String) (text : List Nat) : Msg :=
  { headers := [
      ("Content-Type", "text/plain; charset=utf-8"),
      ("X-Timestamp", ts),
      ("X-RequestId", request_id),
      ("Path", "text")],
    body := .text text }

/-- Embedding of `create_turn_end_message(request_id)`: `Path: turn.end`, no body. -/
def create_turn_end_message (request_id ts : String) : Msg :=
  { headers := [
      ("X-Timestamp", ts),
      ("X-RequestId", request_id),
      ("Path", "turn.end")],
    body := .empty }

/-! ## The `TextStream` write handle (`src/synthesizer/text_stream.rs`)

```rust
pub struct TextStream { client: BaseClient, request_id: String }

pub async fn write(&self, text: &str) -> crate::Result<()> {
    for chunk in Utf8Chunker::new(text.as_bytes(), MAX_TEXT_FRAME_BYTES) {
        let chunk_str = std::str::from_utf8(chunk)
            .map_err(|e| crate::Error::InternalError(e.to_string()))?;
        self.client.send(create_text_message(self.request_id.clone(), chunk_str)).await?;
    }
    Ok(())
}

pub async fn finish(&self) -> crate::Result<()> {
    self.client.send(create_turn_end_message(self.request_id.clone())).await
}
```

The transport (`client.send`) is modelled as an append-only list of sent
frames and is assumed not to fail; the only failure modelled is the
`from_utf8` error inside `write`.  `TextStream` carries no other state —
exactly as in the source, which has no "finished" flag. -/

/-- The frame budget `MAX_TEXT_FRAME_BYTES`. -/
def MAX_TEXT_FRAME_BYTES : Nat := 4096

/-- The `for chunk in …` loop body of `TextStream::write` over an explicit
chunk list: returns the frames sent, in order, and whether the call returned
`Ok` — on an invalid-UTF-8 chunk the loop stops with the `InternalError`
before sending the frame of that chunk. -/
def sendLoop (request_id ts : String) : List (List Nat) → List Msg × Bool
  | [] => ([], true)
  | c :: cs =>
    if validUtf8 c then
      let r := sendLoop request_id ts cs
      (create_text_message request_id ts c :: r.1, r.2)
    else ([], false)

/-- Embedding of `TextStream::write(text)`: chunk `text` with the fixed 4096-byte limit and
send one `text` message per chunk; result is (frames sent, returned Ok). -/
def write (request_id ts : String) (text : List Nat) : List Msg × Bool :=
  sendLoop request_id ts (chunks text MAX_TEXT_FRAME_BYTES)

/-- One caller-issued operation on a `TextStream` handle. -/
inductive StreamOp where
  | write (ts : String) (text : List Nat)
  | finish (ts : String)

/-- Sequential caller-driven use of one `TextStream` handle (as in
`examples/synthesize_text_streaming.rs`): run the operations in order,
stopping at the first failing call; result is (all frames sent over the
transport, in order, and whether every call returned `Ok`).  `finish` sends
the `turn.end` frame unconditionally — the source keeps no state that could
make it, or a later `write`, fail. -/
def runOps (request_id : String) : List StreamOp → List Msg × Bool
  | [] => ([], true)
  | .write ts text :: rest =>
    let r := write request_id ts text
    if r.2 then
      let r2 := runOps request_id rest
      (r.1 ++ r2.1, r2.2)
    else (r.1, false)
  | .finish ts :: rest =>
    let r2 := runOps request_id rest
    (create_turn_end_message request_id ts :: r2.1, r2.2)

/-! ## Chunker lemmas -/

/-- The backoff loop never moves `end` forward. -/
theorem backoffEnd_le (data : List Nat) (offset : Nat) :
    ∀ e, backoffEnd data offset e ≤ e := by
  intro e
  induction e with
  | zero => simp [backoffEnd]
  | succ e ih =>
    unfold backoffEnd
    split
    · exact le_trans ih (Nat.le_succ e)
    · exact le_refl _

/-- The backoff loop never moves `end` before the cursor. -/
theorem le_backoffEnd (data : List Nat) (offset : Nat) :
    ∀ e, offset ≤ e → offset ≤ backoffEnd data offset e := by
  intro e
  induction e with
  | zero => intro h; simpa [backoffEnd] using h
  | succ e ih =>
    intro h
    unfold backoffEnd
    split
    · next hc =>
      simp only [Bool.and_eq_true, decide_eq_true_eq] at hc
      exact ih (by omega)
    · exact h

/-- The end of a chunk never passes the end of the input. -/
theorem chunkEnd_le (data : List Nat) (limit offset : Nat)
    (h : offset ≤ data.length) : chunkEnd data limit offset ≤ data.length := by
  simp only [chunkEnd]
  have htake : offset + min (data.length - offset) limit ≤ data.length := by
    have := Nat.min_le_left (data.length - offset) limit
    omega
  have hb := backoffEnd_le data offset (offset + min (data.length - offset) limit)
  split
  · exact htake
  · exact le_trans hb htake

/-- With a positive limit and input remaining, every `next()` call advances
the cursor by at least one byte (so the iterator terminates). -/
theorem lt_chunkEnd (data : List Nat) (limit offset : Nat)
    (h1 : offset < data.length) (h2 : 1 ≤ limit) :
    offset < chunkEnd data limit offset := by
  simp only [chunkEnd]
  have htake : 1 ≤ min (data.length - offset) limit := by
    have : 1 ≤ data.length - offset := by omega
    omega
  have hb := le_backoffEnd data offset (offset + min (data.length - offset) limit)
    (Nat.le_add_right _ _)
  split
  · omega
  · next hne => omega

/-- Core invariant: with a positive limit and enough fuel, the chunks from
`offset` concatenate back to the suffix of the input from `offset`. -/
theorem chunksFuel_flatten (data : List Nat) (limit : Nat) (h2 : 1 ≤ limit) :
    ∀ fuel offset, data.length - offset ≤ fuel →
      (chunksFuel data limit fuel offset).flatten = data.drop offset := by
  intro fuel
  induction fuel with
  | zero =>
    intro offset h
    have : data.length ≤ offset := by omega
    simp [chunksFuel, List.drop_eq_nil_of_le this]
  | succ fuel ih =>
    intro offset h
    unfold chunksFuel
    split
    · next hlt =>
      have hE := lt_chunkEnd data limit offset hlt h2
      have hEle := chunkEnd_le data limit offset (le_of_lt hlt)
      have hrest := ih (chunkEnd data limit offset) (by omega)
      rw [List.flatten_cons, hrest]
      have hdrop : data.drop (chunkEnd data limit offset) =
          (data.drop offset).drop (chunkEnd data limit offset - offset) := by
        rw [List.drop_drop]
        congr 1
        omega
      rw [hdrop, List.take_append_drop]
    · next hge =>
      have : data.length ≤ offset := by omega
      simp [List.drop_eq_nil_of_le this]

/-- Fuel irrelevance: any two sufficient fuel amounts give the same chunk
list (the iterator has terminated by then). -/
theorem chunksFuel_stable (data : List Nat) (limit : Nat) (h2 : 1 ≤ limit) :
    ∀ f g offset, data.length - offset ≤ f → data.length - offset ≤ g →
      chunksFuel data limit f offset = chunksFuel data limit g offset := by
  intro f
  induction f with
  | zero =>
    intro g offset hf hg
    have hle : data.length ≤ offset := by omega
    cases g with
    | zero => rfl
    | succ g =>
      simp [chunksFuel]
      omega
  | succ f ih =>
    intro g offset hf hg
    cases g with
    | zero =>
      have hle : data.length ≤ offset := by omega
      simp [chunksFuel]
      omega
    | succ g =>
      unfold chunksFuel
      split
      · next hlt =>
        have hE := lt_chunkEnd data limit offset hlt h2
        exact congrArg _ (ih g (chunkEnd data limit offset) (by omega) (by omega))
      · rfl

/-- Path lookup through nested JSON objects. -/
def Json.getPath (j : Json) : List String → Option Json
  | [] => some j
  | k :: ks =>
    match j.getField k with
    | some v => Json.getPath v ks
    | none => none

/-- UTF-8 bytes of the ASCII string used by
`examples/synthesize_text_streaming.rs`, beginning with
`Input text streaming.` followed by a trailing space (for ASCII text the
UTF-8 bytes are the character codes). -/
def inputTextBytes : List Nat :=
  [73, 110, 112, 117, 116, 32, 116, 101, 120, 116, 32, 115, 116, 114, 101,
   97, 109, 105, 110, 103, 46, 32]

/-- UTF-8 bytes of the ASCII string `hello`. -/
def helloBytes : List Nat := [104, 101, 108, 108, 111]

/-- UTF-8 bytes of the two-byte code point U+00E9 (latin small letter e with
acute): `0xC3 0xA9`. -/
def eacuteBytes : List Nat := [0xC3, 0xA9]

/-- The language pair named by the spec: locale `en-US`, default voice
`en-US-JennyNeural`. -/
def enUS : Language := ⟨"en-US", "en-US-JennyNeural"⟩

/-- A concrete configuration used to instantiate the universally quantified
theorems: language `en-US`, no explicit voice, auto-detection disabled. -/
def sampleConfig : Config :=
  { bookmark_enabled := false
    punctuation_boundary_enabled := false
    sentence_boundary_enabled := true
    session_end_enabled := true
    viseme_enabled := false
    word_boundary_enabled := true
    audio_format := "audio-24khz-48kbitrate-mono-mp3"
    language := enUS
    voice := none
    auto_detect_language := false
    device_system := .str "rust-sdk"
    device_os := .str "linux" }

/-- Shared helper: with a per-request override present, the `request` key of
the `synthesis` object holds exactly the built override object, whatever the
auto-detection flag. -/
theorem getPath_request (config : Config) (req : StreamingRequest) :
    Json.getPath (synthesisContextBody config (some req)) ["synthesis", "request"] =
      some (requestJson req) := by
  unfold synthesisContextBody
  cases hc : config.auto_detect_language <;>
    simp [hc, Json.setField, setF, Json.getField, getF, Json.getPath]

/-- C1 counterexample: running `finish()` and then `write("hello")` on one
`TextStream` handle sends the `turn.end` frame followed by a further `text`
frame, and the write reports success — the code keeps no finished flag, so
no protocol-misuse error exists.  This contradicts the claim that a write
after finish fails and sends no further frame. -/
theorem write_after_finish_sends_frame :
    runOps "rid" [.finish "t1", .write "t2" helloBytes] =
      ([create_turn_end_message "rid" "t1",
        create_text_message "rid" "t2" helloBytes], true) := rfl

/-- C1 (amended): `TextStream` keeps no finished state, so a `write` issued
after `finish` is processed exactly like a fresh write — its frames are sent
over the transport after the `turn.end` frame, and its result is whatever the
fresh write returns; no protocol-misuse error is raised. -/
theorem write_after_finish_behaves_like_write
    (request_id ts1 ts2 : String) (text : List Nat) :
    runOps request_id [.finish ts1, .write ts2 text] =
      (create_turn_end_message request_id ts1 :: (write request_id ts2 text).1,
        (write request_id ts2 text).2) := by
  cases h : (write request_id ts2 text).2 <;> simp [runOps, h]

/-- C2: evaluation at the failing input.  The byte sequence `0xC3 0xA9`
(the two-byte code point U+00E9) is valid UTF-8, and the limit 4 satisfies
`L ≥ 4`; yet the chunker splits it into the chunks `[0xC3]` and `[0xA9]`,
neither of which is valid UTF-8 — the backoff loop inspects the byte before
the candidate end instead of the byte at it, so it backs off over a chunk
that ends exactly on a code-point boundary and stops after the lead byte.
Consequently the `from_utf8` error branch of `TextStream::write` is
reachable on valid input, contrary to the claim. -/
theorem chunker_splits_two_byte_codepoint :
    validUtf8 eacuteBytes = true ∧
    chunks eacuteBytes 4 = [[0xC3], [0xA9]] ∧
    validUtf8 [0xC3] = false ∧ validUtf8 [0xA9] = false := by
  refine ⟨rfl, rfl, rfl, rfl⟩

/-- C3: for every byte sequence and every limit `L ≥ 1` the chunker
terminates — any fuel at or beyond one `next()` call per input byte yields
the same chunk list — and concatenating all chunks, in order, reproduces the
input exactly. -/
theorem chunker_concat (data : List Nat) (limit : Nat) (h : 1 ≤ limit) :
    (∀ extra, chunksFuel data limit (data.length + extra) 0 = chunks data limit) ∧
    (chunks data limit).flatten = data := by
  constructor
  · intro extra
    exact chunksFuel_stable data limit h _ _ 0 (by omega) (by omega)
  · simpa using chunksFuel_flatten data limit h data.length 0 (by omega)

/-- C3 witness: the theorem instantiated at the bytes of `hello` with
limit 2. -/
theorem chunker_concat_witness :
    chunksFuel [104, 101, 108, 108, 111] 2 (5 + 3) 0 =
      chunks [104, 101, 108, 108, 111] 2 ∧
    (chunks [104, 101, 108, 108, 111] 2).flatten = [104, 101, 108, 108, 111] :=
  ⟨(chunker_concat [104, 101, 108, 108, 111] 2 (by decide)).1 3,
   (chunker_concat [104, 101, 108, 108, 111] 2 (by decide)).2⟩

/-- C4: evaluation at the failing input, together with the part of the claim
that does hold.  For the valid UTF-8 input `0xC3 0xA9` the chunker yields two
chunks, but `write` sends zero messages and returns an error (the first
chunk fails the `from_utf8` check) — refuting one-message-per-chunk.  For
the short ASCII input of the example, `write` does send exactly one `text`
message whose body is the input verbatim. -/
theorem write_eacute_fails_ascii_verbatim :
    chunks eacuteBytes MAX_TEXT_FRAME_BYTES = [[0xC3], [0xA9]] ∧
    write "rid" "ts" eacuteBytes = ([], false) ∧
    chunks inputTextBytes MAX_TEXT_FRAME_BYTES = [inputTextBytes] ∧
    write "rid" "ts" inputTextBytes =
      ([create_text_message "rid" "ts" inputTextBytes], true) := by
  refine ⟨rfl, rfl, rfl, rfl⟩

/-- C5: the `speech.config` message carries its headers in the exact order
`X-RequestId`, `Path`, `Content-Type`, `X-Timestamp`, and the
`synthesis.context` message carries its headers in the exact order
`Content-Type`, `X-Timestamp`, `X-RequestId`, `Path`, for every request id,
timestamp, configuration and override. -/
theorem header_order (request_id ts : String) (config : Config)
    (request : Option StreamingRequest) :
    (create_speech_config_message request_id ts config).headers.map Prod.fst =
      ["X-RequestId", "Path", "Content-Type", "X-Timestamp"] ∧
    (create_synthesis_context_message request_id ts config request).headers.map Prod.fst =
      ["Content-Type", "X-Timestamp", "X-RequestId", "Path"] :=
  ⟨rfl, rfl⟩

/-- C6: whenever auto-detection is disabled, the `synthesis.context` body
carries `language.locale` equal to the canonical string of the configured
language, and `voice.name` equal to the configured voice or, absent one, the
default voice of the configured language. -/
theorem context_locale_and_voice (config : Config) (request : Option StreamingRequest)
    (h : config.auto_detect_language = false) :
    Json.getPath (synthesisContextBody config request)
        ["synthesis", "language", "locale"] = some (.str config.language.code) ∧
    Json.getPath (synthesisContextBody config request)
        ["synthesis", "voice", "name"] =
      some (.str (config.voice.getD config.language.default_voice).name) := by
  unfold synthesisContextBody
  cases request <;>
    constructor <;>
      simp [h, Json.setField, setF, Json.getField, getF, Json.getPath]

/-- C6 witness: the spec scenario — language `en-US`, no explicit voice,
auto-detection disabled — yields locale `en-US` and voice
`en-US-JennyNeural`. -/
theorem context_locale_and_voice_witness :
    Json.getPath (synthesisContextBody sampleConfig none)
        ["synthesis", "language", "locale"] = some (.str "en-US") ∧
    Json.getPath (synthesisContextBody sampleConfig none)
        ["synthesis", "voice", "name"] = some (.str "en-US-JennyNeural") :=
  context_locale_and_voice sampleConfig none rfl

/-- C7: with a per-request override supplied, the `request` object of the
`synthesis.context` body contains exactly the fields the caller set, each
under its wire name, with unset optional fields absent from the object (its
key list contains precisely the wire names of the set fields); an override
with only `temperature` set produces an object with that single key. -/
theorem request_overrides_exact_fields (config : Config) (req : StreamingRequest) :
    Json.getPath (synthesisContextBody config (some req)) ["synthesis", "request"] =
      some (requestJson req) ∧
    ((requestJson req).getField "pitch" = req.pitch.map .str ∧
     (requestJson req).getField "rate" = req.rate.map .str ∧
     (requestJson req).getField "volume" = req.volume.map .str ∧
     (requestJson req).getField "style" = req.style.map .str ∧
     (requestJson req).getField "temperature" = req.temperature.map .num ∧
     (requestJson req).getField "preferLocales" = req.prefer_locales.map .str ∧
     (requestJson req).getField "customLexiconUrl" = req.custom_lexicon_url.map .str) ∧
    (requestJson req).objKeys =
      (if req.pitch.isSome then ["pitch"] else []) ++
      (if req.rate.isSome then ["rate"] else []) ++
      (if req.volume.isSome then ["volume"] else []) ++
      (if req.style.isSome then ["style"] else []) ++
      (if req.temperature.isSome then ["temperature"] else []) ++
      (if req.prefer_locales.isSome then ["preferLocales"] else []) ++
      (if req.custom_lexicon_url.isSome then ["customLexiconUrl"] else []) ∧
    (∀ t : ℚ, requestJson ⟨none, none, none, none, some t, none, none⟩ =
      .obj [("temperature", .num t)]) := by
  refine ⟨getPath_request config req, ?_⟩
  obtain ⟨p, r, v, st, te, pl, cl⟩ := req
  cases p <;> cases r <;> cases v <;> cases st <;> cases te <;> cases pl <;> cases cl <;>
    simp [requestJson, Json.setField, setF, Json.getField, getF, Json.objKeys]

/-- C8: every limit `1 ≤ L < 4` still gives a terminating chunker whose
concatenated output reconstructs the input, and whenever the backoff loop
runs all the way back to the cursor (the empty-chunk case) the emitted chunk
is re-extended to the full `take`-sized slice, of length
`min (remaining, L)` — the full limit-sized slice whenever at least `L`
bytes remain. -/
theorem chunker_degenerate_limit (data : List Nat) (limit : Nat)
    (h1 : 1 ≤ limit) (h4 : limit < 4) :
    (∀ extra, chunksFuel data limit (data.length + extra) 0 = chunks data limit) ∧
    (chunks data limit).flatten = data ∧
    (∀ offset, offset < data.length →
      backoffEnd data offset (offset + min (data.length - offset) limit) = offset →
      chunkEnd data limit offset = offset + min (data.length - offset) limit ∧
      ((data.drop offset).take (chunkEnd data limit offset - offset)).length =
        min (data.length - offset) limit) := by
  refine ⟨?_, ?_, ?_⟩
  · intro extra
    exact chunksFuel_stable data limit h1 _ _ 0 (by omega) (by omega)
  · simpa using chunksFuel_flatten data limit h1 data.length 0 (by omega)
  · intro offset hoff hback
    have hE : chunkEnd data limit offset = offset + min (data.length - offset) limit := by
      simp only [chunkEnd]
      rw [hback]
      simp
    refine ⟨hE, ?_⟩
    rw [hE]
    simp only [List.length_take, List.length_drop]
    omega

/-- C8 witness: the four-byte code point U+10348 (`F0 90 8D 88`) with
limit 2: the chunker reconstructs the input, and at cursor 1 (inside the
code point) the backoff loop reaches the cursor and the fallback emits the
full 2-byte slice, ending at 3. -/
theorem chunker_degenerate_limit_witness :
    chunksFuel [240, 144, 141, 136] 2 (4 + 1) 0 = chunks [240, 144, 141, 136] 2 ∧
    (chunks [240, 144, 141, 136] 2).flatten = [240, 144, 141, 136] ∧
    chunkEnd [240, 144, 141, 136] 2 1 = 3 ∧
    ((([240, 144, 141, 136] : List Nat).drop 1).take
      (chunkEnd [240, 144, 141, 136] 2 1 - 1)).length = 2 :=
  ⟨(chunker_degenerate_limit [240, 144, 141, 136] 2 (by decide) (by decide)).1 1,
   (chunker_degenerate_limit [240, 144, 141, 136] 2 (by decide) (by decide)).2.1,
   ((chunker_degenerate_limit [240, 144, 141, 136] 2 (by decide) (by decide)).2.2
      1 (by decide) (by decide)).1,
   ((chunker_degenerate_limit [240, 144, 141, 136] 2 (by decide) (by decide)).2.2
      1 (by decide) (by decide)).2⟩

/-- C9: an empty input yields zero chunks for every positive limit — the
empty list of chunks, not one empty chunk. -/
theorem chunks_nil (limit : Nat) (_h : 1 ≤ limit) : chunks [] limit = [] := rfl

/-- C9 witness: the theorem instantiated at limit 1. -/
theorem chunks_nil_witness : chunks [] 1 = [] := chunks_nil 1 (by decide)

/-- C10: a `write` with the empty string sends zero messages over the
transport and returns success; in any surrounding sequence of accepted
operations the empty write leaves the frame sequence and the outcome
unchanged. -/
theorem write_empty_sends_nothing (request_id ts : String) :
    write request_id ts [] = ([], true) ∧
    (∀ ops, runOps request_id (.write ts [] :: ops) = runOps request_id ops) := by
  constructor
  · rfl
  · intro ops
    simp [runOps]
    rfl

end AzureSpeech
